import Mathlib

/-!
Verification development for the serialized write engine, its middleware
composition protocol, and the signed-token subsystem of this repository.

Part I embeds `datasette/tokens.py` (`SignedTokenHandler.create_token` and
`SignedTokenHandler.verify_token`) as executable Lean functions.

The itsdangerous signing layer (`datasette.sign` / `datasette.unsign`) lives
outside the sources at hand, so the space of token strings is modelled by an
inductive type that classifies every input string the Python code can
receive: strings without the dstok marker, strings with the marker whose
signature does not verify, and strings with the marker that unsign to a
payload dictionary.  Payload dictionaries decoded from a signed token are
modelled by `Decoded`; a field of the dictionary that may hold a
non-integer JSON value is modelled by `JVal`.  Wall-clock time
(`time.time()`) is modelled at integer granularity.
-/

namespace Tokens

/-- A JSON value stored under a payload key where the Python code checks
`isinstance(v, int)`: either an integer or some non-integer value. -/
inductive JVal where
  | int (n : Int)
  | nonInt
  deriving DecidableEq, Repr

/-- Restrictions payload, mirroring `TokenRestrictions` in
`datasette/tokens.py`: `all` actions, per-database actions, and
per-resource actions. `verify_token` copies the `_r` payload through
without inspecting it. -/
structure TokenRestrictions where
  all : List String
  database : List (String × List String)
  resource : List (String × List (String × List String))
  deriving DecidableEq, Repr

/-- Python truthiness of a `TokenRestrictions` value as used by
`create_token`: `restrictions.all or restrictions.database or
restrictions.resource`. -/
def TokenRestrictions.truthy (r : TokenRestrictions) : Bool :=
  !r.all.isEmpty || !r.database.isEmpty || !r.resource.isEmpty

/-- The payload dictionary recovered by `datasette.unsign` from a signed
token: actor id `a`, creation time `t`, optional duration `d`, optional
restrictions `_r`.  `t` and `d` may be absent or hold a non-integer value
in an arbitrary signed payload, so they are `Option JVal`. -/
structure Decoded where
  a : String
  t : Option JVal
  d : Option JVal
  r : Option TokenRestrictions
  deriving DecidableEq, Repr

/-- A token string, classified by how the Python code's two syntactic
checks treat it: `noMarker` strings do not start with the dstok marker;
`badSig` strings start with it but `datasette.unsign` raises
`BadSignature` on the rest; `signed` strings start with it and unsign to
a payload. -/
inductive Token where
  | noMarker (s : String)
  | badSig (s : String)
  | signed (payload : Decoded)
  deriving DecidableEq, Repr

/-- `token.startswith("dstok_")`. -/
def Token.hasMarker : Token → Bool
  | .noMarker _ => false
  | _ => true

/-- `datasette.unsign(raw, namespace="token")`: succeeds exactly on
correctly signed tokens, raising (modelled as `none`) on a bad
signature. -/
def Token.unsign : Token → Option Decoded
  | .signed payload => some payload
  | _ => none

/-- The settings `verify_token` and `create_token` consult.
`max_signed_tokens_ttl` defaults to 0 (Python-falsy), meaning no cap. -/
structure Settings where
  allow_signed_tokens : Bool
  max_signed_tokens_ttl : Int
  deriving DecidableEq, Repr

/-- Python truthiness of the `max_signed_tokens_ttl` setting. -/
def Settings.ttlTruthy (s : Settings) : Bool :=
  s.max_signed_tokens_ttl != 0

/-- Errors the token layer raises. -/
inductive TokenError where
  | signedTokensDisabled
  | handlerNotFound (handler : String)
  deriving DecidableEq, Repr

/-- `SignedTokenHandler.create_token` (`datasette/tokens.py`): raises
when signed tokens are disabled, otherwise builds the payload
`{"a": actor_id, "t": now}` adding `"d"` when `expires_after` is truthy
and `"_r"` when the restrictions are truthy, and signs it.
Action abbreviation (`abbreviate_action`) consults the actions registry,
which is empty here, making it the identity on action names. -/
def create_token (s : Settings) (now : Int) (actor_id : String)
    (expires_after : Option Int) (restrictions : Option TokenRestrictions) :
    Except TokenError Token :=
  if !s.allow_signed_tokens then
    .error .signedTokensDisabled
  else
    let d : Option JVal :=
      match expires_after with
      | some n => if n != 0 then some (.int n) else none
      | none => none
    let r : Option TokenRestrictions :=
      match restrictions with
      | some restr => if restr.truthy then some restr else none
      | none => none
    .ok (.signed { a := actor_id, t := some (.int now), d := d, r := r })

/-- The actor dictionary returned by `verify_token`: `{"id": ...,
"token": "dstok"}` plus optional `_r` and `token_expires` keys. -/
structure Actor where
  id : String
  token : String
  r : Option TokenRestrictions
  token_expires : Option Int
  deriving DecidableEq, Repr

/-- The `duration = decoded.get("d")` local of `verify_token`, restricted
to payloads whose `d` is absent or an integer (a non-integer `d` makes
`verify_token` return before this local is used). -/
def durField (decoded : Decoded) : Option Int :=
  match decoded.d with
  | some (.int n) => some n
  | _ => none

/-- The `duration` local of `verify_token` after the TTL-capping step
(lines 157-166 of `datasette/tokens.py`), given a decoded payload whose
`d` is absent or an integer.  `none` means the Python variable is
`None`. -/
def effDuration (s : Settings) (d : Option Int) : Option Int :=
  if (d.isNone && s.ttlTruthy)
      || (d.isSome && s.ttlTruthy && d.getD 0 > s.max_signed_tokens_ttl) then
    some s.max_signed_tokens_ttl
  else
    d

/-- `SignedTokenHandler.verify_token` (`datasette/tokens.py` lines
134-180), with `now` standing for `time.time()`. Returns `none` wherever
the Python function returns `None`. -/
def verify_token (s : Settings) (now : Int) (token : Token) : Option Actor :=
  if !s.allow_signed_tokens then none
  else if !token.hasMarker then none
  else
    match token.unsign with
    | none => none
    | some decoded =>
      match decoded.t with
      | none => none
      | some .nonInt => none
      | some (.int created) =>
        if decoded.d == some .nonInt then none
        else
          let duration := effDuration s (durField decoded)
          -- `if duration:` — truthy means not None and nonzero
          if duration.getD 0 != 0 && now - created > duration.getD 0 then
            none
          else
            some { id := decoded.a
                   token := "dstok"
                   r := decoded.r
                   token_expires :=
                     if duration.getD 0 != 0 then
                       some (created + duration.getD 0)
                     else none }

end Tokens

/-!
Part II models the Serialized Write Engine's Middleware Composition
Protocol and Caller Facade.  The engine itself (the per-store writer and
the write_wrapper driving loop) is not among the sources at hand — only
its tests are — so these definitions are modelled from the spec
(sections 4.1-4.3 and 6) rather than translated from code.
-/

namespace WriteEngine

/-- The inner operation's result: a success value or a failure carrying
an error message.  Success values are numbered; failures carry the
raised message (e.g. a task raising the message deliberate). -/
inductive Outcome where
  | ok (r : Nat)
  | err (e : String)
  deriving DecidableEq, Repr

/-- What a wrap unit's after phase does while observing the outcome:
observe it normally, catch and swallow a failure internally, or itself
raise with a message. -/
inductive AfterBehavior where
  | observe
  | swallow
  | raiseWith (msg : String)
  deriving DecidableEq, Repr

/-- Modelled from the spec: a two-phase wrap unit (section 4.2) produced
by a middleware factory; `id` identifies the unit in the event log and
`afterBehavior` is how its after phase acts on the observed outcome. -/
structure WrapUnit where
  id : Nat
  afterBehavior : AfterBehavior
  deriving DecidableEq, Repr

/-- An entry of the observable event log: a unit's before phase ran, the
inner operation ran, or a unit's after phase ran observing the given
outcome. -/
inductive Event where
  | beforeEv (id : Nat)
  | inner
  | afterEv (id : Nat) (observed : Outcome)
  deriving DecidableEq, Repr

/-- Modelled from the spec: a Middleware Factory (sections 4.2 and 6) —
`factory(storeName, requestContext, transactional) -> wrapUnit | none`,
where `none` is the opt-out sentinel. Request contexts are opaque and
modelled as strings. -/
def Factory : Type := String → Option String → Bool → Option WrapUnit

/-- Modelled from the spec: step 1 of the driving algorithm (section
4.2) — query each registered factory in registration order and collect
the non-empty wrap units, in order, into the chain. -/
def buildChain (factories : List Factory) (database : String)
    (request : Option String) (transaction : Bool) : List WrapUnit :=
  factories.filterMap (fun f => f database request transaction)

/-- The failure an after phase itself raises, if any. -/
def afterFailure (u : WrapUnit) : Option String :=
  match u.afterBehavior with
  | .raiseWith msg => some msg
  | _ => none

/-- Result of driving a middleware chain: the observable event log, the
outcome propagated to the caller, and the middleware observation
failures (surfaced for diagnostics, never substituted for the
outcome). -/
structure DriveResult where
  log : List Event
  outcome : Outcome
  failures : List String
  deriving DecidableEq, Repr

/-- Modelled from the spec: steps 2-5 of the driving algorithm (section
4.2), in nested form — the head of the chain is the outermost wrap.  An
empty chain runs the inner operation unwrapped.  A unit runs its before
phase, then the rest of the chain, then its after phase observing the
propagated outcome; if the after phase itself raises, the failure is
recorded but the propagated outcome is unchanged (observation, not
control — section 4.2 step 5). -/
def drive (chain : List WrapUnit) (op : Outcome) : DriveResult :=
  match chain with
  | [] => ⟨[.inner], op, []⟩
  | u :: rest =>
    let r := drive rest op
    ⟨.beforeEv u.id :: r.log ++ [.afterEv u.id r.outcome],
     r.outcome,
     r.failures ++ (afterFailure u).toList⟩

/-- One factory invocation record: the arguments the engine passed. -/
structure HookCall where
  database : String
  request : Option String
  transaction : Bool
  deriving DecidableEq, Repr

/-- Modelled from the spec: a Write Task (section 3) — the inner
operation (represented by its outcome), the transaction flag and the
optional request context. -/
structure WriteTask where
  operation : Outcome
  transactional : Bool
  requestContext : Option String

/-- What the caller and the observers see from one task execution. -/
structure RunResult where
  calls : List HookCall
  transactionOpened : Bool
  log : List Event
  outcome : Outcome
  middlewareFailures : List String

/-- Modelled from the spec: the Per-Store Writer executing one dequeued
task (section 4.1 steps 2-5): open a transaction boundary iff the task
is transactional, query every registered factory with the store name,
the task's request context and its transaction flag, drive the chain
with the task's operation innermost, and resolve the caller with the
propagated outcome. -/
def runTask (factories : List Factory) (database : String)
    (task : WriteTask) : RunResult :=
  let chain := buildChain factories database task.requestContext task.transactional
  let r := drive chain task.operation
  { calls := factories.map
      (fun _ => ⟨database, task.requestContext, task.transactional⟩)
    transactionOpened := task.transactional
    log := r.log
    outcome := r.outcome
    middlewareFailures := r.failures }

/-- Modelled from the spec: the `options` configuration set of the
Caller Facade (section 4.3): `transaction` defaults to true when
unspecified, `requestContext` defaults to none. -/
structure WriteOptions where
  transaction : Option Bool
  requestContext : Option String

/-- Modelled from the spec: `executeWriteWithFunction` (section 4.3) —
constructs a Write Task from the options (transaction defaulting to
true) and submits it to the Per-Store Writer. -/
def executeWriteWithFunction (factories : List Factory) (database : String)
    (operation : Outcome) (options : WriteOptions) : RunResult :=
  runTask factories database
    ⟨operation, options.transaction.getD true, options.requestContext⟩

/-- Modelled from the spec: `executeWrite` (section 4.3) — the raw-SQL
convenience; equivalent to `executeWriteWithFunction` at the Per-Store
Writer boundary, the SQL execution standing as the task operation. -/
def executeWrite (factories : List Factory) (database : String)
    (sqlOutcome : Outcome) (options : WriteOptions) : RunResult :=
  executeWriteWithFunction factories database sqlOutcome options

/-- State of one store's writer: every task id ever submitted in
submission order, the pending FIFO queue, the task currently executing
against the connection (at most one, by type), and the completed task
ids in completion order. -/
structure WriterState where
  submitted : List Nat
  queue : List Nat
  running : Option Nat
  finished : List Nat
  deriving DecidableEq, Repr

/-- The writer before any task is submitted. -/
def initState : WriterState := ⟨[], [], none, []⟩

/-- Modelled from the spec: the Per-Store Writer as a transition system
(sections 4.1 and 5) — callers append tasks to the FIFO queue; the
single dedicated worker starts the head of the queue only when nothing
is running, and completion frees the worker for the next task. -/
inductive WStep : WriterState → WriterState → Prop where
  | submit (s : WriterState) (t : Nat) :
      WStep s ⟨s.submitted ++ [t], s.queue ++ [t], s.running, s.finished⟩
  | start (s : WriterState) (t : Nat) (rest : List Nat)
      (hrun : s.running = none) (hq : s.queue = t :: rest) :
      WStep s ⟨s.submitted, rest, some t, s.finished⟩
  | finish (s : WriterState) (t : Nat) (hrun : s.running = some t) :
      WStep s ⟨s.submitted, s.queue, none, s.finished ++ [t]⟩

/-- Writer states reachable from the initial state. -/
def Reachable (s : WriterState) : Prop :=
  Relation.ReflTransGen WStep initState s

/-- Modelled from the spec: the token-handler lookup of the caller-side
`create_token` entry point, which is not among the sources at hand (only
the `TokenHandler` base class and its tests are): handlers are selected
by name from the registered list, and an unknown name is a
ConfigurationFailure raised synchronously, before any task is enqueued
or any token produced. -/
structure Handler where
  name : String
  deriving DecidableEq, Repr

/-- The default signed handler, registered under the name signed. -/
def signedHandler : Handler := ⟨"signed"⟩

/-- Modelled from the spec: look up a registered token handler by
name. -/
def findHandler (handlers : List Handler) (handler : String) : Option Handler :=
  handlers.find? (fun h => h.name == handler)

/-- Modelled from the spec: the caller-side `create_token` dispatch — an
unknown handler name raises synchronously; a found handler creates the
token (the signed handler's behaviour is `Tokens.create_token`). -/
def createTokenDispatch (handlers : List Handler) (handler : String)
    (s : Tokens.Settings) (now : Int) (actor_id : String) :
    Except Tokens.TokenError Tokens.Token :=
  match findHandler handlers handler with
  | none => .error (.handlerNotFound handler)
  | some _ => Tokens.create_token s now actor_id none none

end WriteEngine

/-!
Theorems.  Helper lemmas first, then one theorem per claim.
-/

namespace WriteEngine

/-- Driving a chain always propagates the inner operation's outcome
unchanged, whatever the after phases do. -/
theorem drive_outcome (chain : List WrapUnit) (op : Outcome) :
    (drive chain op).outcome = op := by
  induction chain with
  | nil => rfl
  | cons u rest ih => simp [drive, ih]

/-- The event log of a driven chain: all before phases in chain order,
the inner operation, then all after phases in reverse chain order, each
observing the inner outcome. -/
theorem drive_log (chain : List WrapUnit) (op : Outcome) :
    (drive chain op).log =
      chain.map (fun u => Event.beforeEv u.id) ++ [Event.inner]
        ++ chain.reverse.map (fun u => Event.afterEv u.id op) := by
  induction chain with
  | nil => rfl
  | cons u rest ih =>
      simp [drive, ih, drive_outcome, List.map_append, List.append_assoc]

/-- Position of the before event of the k-th chain unit in the log. -/
theorem drive_log_before (W : List WrapUnit) (op : Outcome) (k : Nat)
    (U : WrapUnit) (hU : W[k]? = some U) :
    (drive W op).log[k]? = some (.beforeEv U.id) := by
  have hk : k < W.length := (List.getElem?_eq_some_iff.mp hU).1
  have h1 : k < (W.map (fun u => Event.beforeEv u.id)).length := by
    simpa using hk
  rw [drive_log, List.append_assoc, List.getElem?_append_left h1,
      List.getElem?_map, hU]
  rfl

/-- Position of the after event of the k-th chain unit in the log:
mirrored across the inner event, at index `2 * length - k`. -/
theorem drive_log_after (W : List WrapUnit) (op : Outcome) (k : Nat)
    (U : WrapUnit) (hU : W[k]? = some U) :
    (drive W op).log[2 * W.length - k]? = some (.afterEv U.id op) := by
  have hk : k < W.length := (List.getElem?_eq_some_iff.mp hU).1
  have h1 : (W.map (fun u => Event.beforeEv u.id)).length ≤ 2 * W.length - k := by
    simp; omega
  rw [drive_log, List.append_assoc, List.getElem?_append_right h1]
  have h2 : 2 * W.length - k - (W.map (fun u => Event.beforeEv u.id)).length
      = W.length - k := by simp; omega
  rw [h2]
  have h3 : (([Event.inner] : List Event)).length ≤ W.length - k := by
    simp; omega
  rw [List.getElem?_append_right h3]
  have h4 : W.length - k - ([Event.inner] : List Event).length = W.length - k - 1 := by
    simp
  rw [h4, List.getElem?_map]
  have h5 : W.length - k - 1 < W.reverse.length := by simp; omega
  rw [List.getElem?_reverse (by simpa using h5)]
  have h6 : W.length - 1 - (W.length - k - 1) = k := by omega
  rw [h6, hU]
  rfl

/-- C1: for every write task whose inner operation fails with error `e`,
after all registered middleware after phases have run, the caller of
`executeWrite` / `executeWriteWithFunction` observes exactly the original
failure `e`, whatever the registered factories and however their after
phases behave (observe, swallow, or raise): no after phase can replace or
hide the inner outcome. -/
theorem C1_non_suppression (factories : List Factory) (database : String)
    (e : String) (options : WriteOptions) :
    (executeWrite factories database (.err e) options).outcome = .err e ∧
    (executeWriteWithFunction factories database (.err e) options).outcome
      = .err e := by
  constructor <;>
    simp [executeWrite, executeWriteWithFunction, runTask, drive_outcome]

/-- C2: nesting is LIFO — if units A and B sit at chain positions
`i < j` (so A's before phase runs before B's before phase), then in the
observed event log A's before event is at index i, B's at index j, B's
after event at index `2n - j` and A's after event at index `2n - i`,
with `2n - j < 2n - i`: after phases run in exactly the reverse order of
the before phases. -/
theorem C2_nesting_lifo (factories : List Factory) (database : String)
    (req : Option String) (tr : Bool) (op : Outcome) (i j : Nat)
    (A B : WrapUnit) (hij : i < j)
    (hA : (buildChain factories database req tr)[i]? = some A)
    (hB : (buildChain factories database req tr)[j]? = some B) :
    ((drive (buildChain factories database req tr) op).log[i]?
        = some (.beforeEv A.id)) ∧
    ((drive (buildChain factories database req tr) op).log[j]?
        = some (.beforeEv B.id)) ∧
    ((drive (buildChain factories database req tr) op).log[
        2 * (buildChain factories database req tr).length - j]?
        = some (.afterEv B.id op)) ∧
    ((drive (buildChain factories database req tr) op).log[
        2 * (buildChain factories database req tr).length - i]?
        = some (.afterEv A.id op)) ∧
    2 * (buildChain factories database req tr).length - j
      < 2 * (buildChain factories database req tr).length - i := by
  have hi : i < (buildChain factories database req tr).length :=
    (List.getElem?_eq_some_iff.mp hA).1
  have hj : j < (buildChain factories database req tr).length :=
    (List.getElem?_eq_some_iff.mp hB).1
  exact ⟨drive_log_before _ op i A hA, drive_log_before _ op j B hB,
    drive_log_after _ op j B hB, drive_log_after _ op i A hA, by omega⟩

/-- Witness for C2 at two concrete factories: the log is
before 0, before 1, inner, after 1, after 0. -/
theorem C2_nesting_lifo_witness :
    ((drive (buildChain
        [fun _ _ _ => some ⟨0, .observe⟩, fun _ _ _ => some ⟨1, .observe⟩]
        "test" none true) (.ok 7)).log[0]? = some (.beforeEv 0)) ∧
    ((drive (buildChain
        [fun _ _ _ => some ⟨0, .observe⟩, fun _ _ _ => some ⟨1, .observe⟩]
        "test" none true) (.ok 7)).log[1]? = some (.beforeEv 1)) ∧
    ((drive (buildChain
        [fun _ _ _ => some ⟨0, .observe⟩, fun _ _ _ => some ⟨1, .observe⟩]
        "test" none true) (.ok 7)).log[
        2 * (buildChain
          [fun _ _ _ => some ⟨0, .observe⟩, fun _ _ _ => some ⟨1, .observe⟩]
          "test" none true).length - 1]? = some (.afterEv 1 (.ok 7))) ∧
    ((drive (buildChain
        [fun _ _ _ => some ⟨0, .observe⟩, fun _ _ _ => some ⟨1, .observe⟩]
        "test" none true) (.ok 7)).log[
        2 * (buildChain
          [fun _ _ _ => some ⟨0, .observe⟩, fun _ _ _ => some ⟨1, .observe⟩]
          "test" none true).length - 0]? = some (.afterEv 0 (.ok 7))) ∧
    2 * (buildChain
        [fun _ _ _ => some ⟨0, .observe⟩, fun _ _ _ => some ⟨1, .observe⟩]
        "test" none true).length - 1
      < 2 * (buildChain
        [fun _ _ _ => some ⟨0, .observe⟩, fun _ _ _ => some ⟨1, .observe⟩]
        "test" none true).length - 0 :=
  C2_nesting_lifo
    [fun _ _ _ => some ⟨0, .observe⟩, fun _ _ _ => some ⟨1, .observe⟩]
    "test" none true (.ok 7) 0 1 ⟨0, .observe⟩ ⟨1, .observe⟩
    (by decide) rfl rfl

/-- C4: a factory returning the opt-out sentinel for a task contributes
no before or after event to the log, the remaining wrap units still nest
exactly as they would without it, and the write's outcome is the inner
operation's outcome. -/
theorem C4_opt_out_transparency (l1 l2 : List Factory) (f : Factory)
    (database : String) (op : Outcome) (options : WriteOptions)
    (h : f database options.requestContext (options.transaction.getD true)
      = none) :
    ((executeWriteWithFunction (l1 ++ f :: l2) database op options).log
      = (executeWriteWithFunction (l1 ++ l2) database op options).log) ∧
    ((executeWriteWithFunction (l1 ++ f :: l2) database op options).outcome
      = op) ∧
    ((executeWriteWithFunction (l1 ++ f :: l2) database op
        options).middlewareFailures
      = (executeWriteWithFunction (l1 ++ l2) database op
          options).middlewareFailures) := by
  have hchain : buildChain (l1 ++ f :: l2) database options.requestContext
        (options.transaction.getD true)
      = buildChain (l1 ++ l2) database options.requestContext
        (options.transaction.getD true) := by
    simp [buildChain, List.filterMap_append, List.filterMap_cons, h]
  refine ⟨?_, ?_, ?_⟩ <;>
    simp [executeWriteWithFunction, runTask, hchain, drive_outcome]

/-- Witness for C4: one opted-out factory between two active ones. -/
theorem C4_opt_out_transparency_witness :
    ((executeWriteWithFunction
        [fun _ _ _ => some ⟨0, .observe⟩, fun _ _ _ => none,
         fun _ _ _ => some ⟨1, .observe⟩] "test" (.ok 3) ⟨none, none⟩).log
      = (executeWriteWithFunction
        [fun _ _ _ => some ⟨0, .observe⟩,
         fun _ _ _ => some ⟨1, .observe⟩] "test" (.ok 3) ⟨none, none⟩).log) ∧
    ((executeWriteWithFunction
        [fun _ _ _ => some ⟨0, .observe⟩, fun _ _ _ => none,
         fun _ _ _ => some ⟨1, .observe⟩] "test" (.ok 3)
        ⟨none, none⟩).outcome = .ok 3) ∧
    ((executeWriteWithFunction
        [fun _ _ _ => some ⟨0, .observe⟩, fun _ _ _ => none,
         fun _ _ _ => some ⟨1, .observe⟩] "test" (.ok 3)
        ⟨none, none⟩).middlewareFailures
      = (executeWriteWithFunction
        [fun _ _ _ => some ⟨0, .observe⟩,
         fun _ _ _ => some ⟨1, .observe⟩] "test" (.ok 3)
        ⟨none, none⟩).middlewareFailures) :=
  C4_opt_out_transparency [fun _ _ _ => some ⟨0, .observe⟩]
    [fun _ _ _ => some ⟨1, .observe⟩] (fun _ _ _ => none)
    "test" (.ok 3) ⟨none, none⟩ rfl

/-- C5: with exactly one registered wrap unit and a succeeding inner
operation, the observed log is exactly before, inner, after — the before
phase runs before the operation, the after phase after it — and the
after phase observes the success value. -/
theorem C5_two_phase_result_visibility (f : Factory) (u : WrapUnit)
    (database : String) (rv : Nat) (options : WriteOptions)
    (h : f database options.requestContext (options.transaction.getD true)
      = some u) :
    ((executeWriteWithFunction [f] database (.ok rv) options).log
      = [.beforeEv u.id, .inner, .afterEv u.id (.ok rv)]) ∧
    ((executeWriteWithFunction [f] database (.ok rv) options).outcome
      = .ok rv) := by
  constructor <;>
    simp [executeWriteWithFunction, runTask, buildChain,
      List.filterMap_cons, h, drive]

/-- Witness for C5 at a concrete single factory and success value 7. -/
theorem C5_two_phase_result_visibility_witness :
    ((executeWriteWithFunction [fun _ _ _ => some ⟨0, .observe⟩] "test"
        (.ok 7) ⟨none, none⟩).log
      = [.beforeEv 0, .inner, .afterEv 0 (.ok 7)]) ∧
    ((executeWriteWithFunction [fun _ _ _ => some ⟨0, .observe⟩] "test"
        (.ok 7) ⟨none, none⟩).outcome = .ok 7) :=
  C5_two_phase_result_visibility (fun _ _ _ => some ⟨0, .observe⟩)
    ⟨0, .observe⟩ "test" 7 ⟨none, none⟩ rfl

/-- C6: every registered factory is invoked with the store name, the
caller's request context (none when unsupplied) and a transactional flag
equal to the caller's transaction option, defaulting to true when the
option is unspecified; transaction=false reaches every factory as false
and opens no transaction boundary. -/
theorem C6_factory_parameters (factories : List Factory) (database : String)
    (op : Outcome) (req : Option String) :
    ((executeWriteWithFunction factories database op ⟨none, req⟩).calls
      = factories.map (fun _ => ⟨database, req, true⟩)) ∧
    ((executeWriteWithFunction factories database op
        ⟨none, req⟩).transactionOpened = true) ∧
    ((executeWriteWithFunction factories database op ⟨some false, req⟩).calls
      = factories.map (fun _ => ⟨database, req, false⟩)) ∧
    ((executeWriteWithFunction factories database op
        ⟨some false, req⟩).transactionOpened = false) ∧
    ((executeWriteWithFunction factories database op ⟨some true, req⟩).calls
      = factories.map (fun _ => ⟨database, req, true⟩)) :=
  ⟨rfl, rfl, rfl, rfl, rfl⟩

/-- C3: FIFO single-writer discipline — in every reachable writer state
the submission order decomposes as finished tasks, then the at most one
running task (at most one by the `Option` type, restated as the second
conjunct), then the pending queue: tasks begin and complete execution in
submission order, and a task can only start when nothing is running and
it is the earliest submitted unfinished task (third conjunct). -/
theorem C3_fifo_single_writer (s : WriterState) (h : Reachable s) :
    (s.submitted = s.finished ++ s.running.toList ++ s.queue) ∧
    (∀ t u, s.running = some t → s.running = some u → t = u) ∧
    (∀ t rest, s.running = none → s.queue = t :: rest →
      s.submitted = s.finished ++ t :: rest) := by
  have inv : s.submitted = s.finished ++ s.running.toList ++ s.queue := by
    induction h with
    | refl => rfl
    | tail hsteps hstep ih =>
        cases hstep with
        | submit t => simp [ih, List.append_assoc]
        | start t rest hrun hq =>
            simp only [ih, hrun, hq]
            simp
        | finish t hrun =>
            simp only [ih, hrun]
            simp
  refine ⟨inv, ?_, ?_⟩
  · intro t u ht hu
    rw [ht] at hu
    exact Option.some.inj hu
  · intro t rest hrun hq
    rw [inv, hrun, hq]
    simp

/-- Witness for C3 at the state reached by submitting task 0 to the
initial writer. -/
theorem C3_fifo_single_writer_witness :
    ((WriterState.mk [0] [0] none []).submitted
      = (WriterState.mk [0] [0] none []).finished
        ++ (WriterState.mk [0] [0] none []).running.toList
        ++ (WriterState.mk [0] [0] none []).queue) ∧
    (∀ t u, (WriterState.mk [0] [0] none []).running = some t →
      (WriterState.mk [0] [0] none []).running = some u → t = u) ∧
    (∀ t rest, (WriterState.mk [0] [0] none []).running = none →
      (WriterState.mk [0] [0] none []).queue = t :: rest →
      (WriterState.mk [0] [0] none []).submitted
        = (WriterState.mk [0] [0] none []).finished ++ t :: rest) :=
  C3_fifo_single_writer ⟨[0], [0], none, []⟩
    (Relation.ReflTransGen.single (WStep.submit initState 0))

/-- C7: requesting a named token handler that no registered handler
carries raises a ConfigurationFailure synchronously — the dispatch
returns the handler-not-found error before any task is enqueued or any
token produced, never silently ignoring the request. -/
theorem C7_unknown_handler_raises (handlers : List Handler) (hname : String)
    (s : Tokens.Settings) (now : Int) (aid : String)
    (h : ∀ hd ∈ handlers, hd.name ≠ hname) :
    createTokenDispatch handlers hname s now aid
      = .error (.handlerNotFound hname) := by
  have hfind : findHandler handlers hname = none := by
    apply List.find?_eq_none.mpr
    intro x hx
    simpa using h x hx
  simp [createTokenDispatch, hfind]

/-- Witness for C7: only the signed handler is registered and the
nonexistent handler is requested. -/
theorem C7_unknown_handler_raises_witness :
    createTokenDispatch [signedHandler] "nonexistent" ⟨true, 0⟩ 0 "root"
      = .error (.handlerNotFound "nonexistent") :=
  C7_unknown_handler_raises [signedHandler] "nonexistent" ⟨true, 0⟩ 0 "root"
    (by decide)

end WriteEngine

namespace Tokens

/-- C8: signed-token round trip — with signed tokens enabled and no TTL
cap, a token created for an actor with no expiry verifies immediately to
an actor dict whose id is the actor id and whose token field is dstok,
with no token_expires. -/
theorem C8_signed_token_round_trip (actor_id : String) (now : Int) :
    ∃ tok, create_token ⟨true, 0⟩ now actor_id none none = .ok tok ∧
      verify_token ⟨true, 0⟩ now tok
        = some ⟨actor_id, "dstok", none, none⟩ :=
  ⟨_, rfl, rfl⟩

/-- C9: verification totality — `verify_token` yields none (never an
error) when signed tokens are disabled, when the token lacks the dstok
marker, when its signature does not verify, when the decoded payload
lacks an integer creation time, when its duration field is present but
not an integer, or when its effective nonzero duration has elapsed; and
an actor is returned only for a correctly signed token with an integer
creation time whose effective nonzero duration has not elapsed. -/
theorem C9_verify_token_totality (s : Settings) (now : Int) (tok : Token) :
    (s.allow_signed_tokens = false → verify_token s now tok = none) ∧
    (tok.hasMarker = false → verify_token s now tok = none) ∧
    (tok.unsign = none → verify_token s now tok = none) ∧
    (∀ dec, tok.unsign = some dec → dec.t = none ∨ dec.t = some .nonInt →
      verify_token s now tok = none) ∧
    (∀ dec, tok.unsign = some dec → dec.d = some .nonInt →
      verify_token s now tok = none) ∧
    (∀ dec created d, tok.unsign = some dec → dec.t = some (.int created) →
      effDuration s (durField dec) = some d → d ≠ 0 → now - created > d →
      verify_token s now tok = none) ∧
    (∀ a, verify_token s now tok = some a →
      s.allow_signed_tokens = true ∧
      ∃ dec created, tok.unsign = some dec ∧ dec.t = some (.int created) ∧
        dec.d ≠ some .nonInt ∧
        (∀ d, effDuration s (durField dec) = some d → d ≠ 0 →
          now - created ≤ d)) := by
  obtain ⟨allow, ttl⟩ := s
  cases allow with
  | false =>
      have hv : verify_token ⟨false, ttl⟩ now tok = none := by
        simp [verify_token]
      exact ⟨fun _ => hv, fun _ => hv, fun _ => hv,
        fun _ _ _ => hv, fun _ _ _ => hv, fun _ _ _ _ _ _ _ _ => hv,
        fun a ha => (by rw [hv] at ha; cases ha)⟩
  | true =>
      cases tok with
      | noMarker str =>
          have hv : verify_token ⟨true, ttl⟩ now (.noMarker str) = none := by
            simp [verify_token, Token.hasMarker]
          exact ⟨fun h => (by cases h), fun _ => hv, fun _ => hv,
            fun dec h => (by cases h), fun dec h => (by cases h),
            fun dec c d h => (by cases h),
            fun a ha => (by rw [hv] at ha; cases ha)⟩
      | badSig str =>
          have hv : verify_token ⟨true, ttl⟩ now (.badSig str) = none := by
            simp [verify_token, Token.hasMarker, Token.unsign]
          exact ⟨fun h => (by cases h), fun h => (by cases h), fun _ => hv,
            fun dec h => (by cases h), fun dec h => (by cases h),
            fun dec c d h => (by cases h),
            fun a ha => (by rw [hv] at ha; cases ha)⟩
      | signed payload =>
          refine ⟨fun h => (by cases h), fun h => (by cases h),
            fun h => (by cases h), ?_, ?_, ?_, ?_⟩
          · intro dec hdec ht
            obtain rfl : payload = dec := Option.some.inj hdec
            rcases ht with ht | ht <;>
              simp [verify_token, Token.hasMarker, Token.unsign, ht]
          · intro dec hdec hd
            obtain rfl : payload = dec := Option.some.inj hdec
            cases hpt : payload.t with
            | none => simp [verify_token, Token.hasMarker, Token.unsign, hpt]
            | some jv =>
                cases jv with
                | nonInt =>
                    simp [verify_token, Token.hasMarker, Token.unsign, hpt]
                | int c =>
                    simp [verify_token, Token.hasMarker, Token.unsign,
                      hpt, hd]
          · intro dec created d hdec ht hdur hdne hgt
            obtain rfl : payload = dec := Option.some.inj hdec
            by_cases hd : payload.d = some JVal.nonInt
            · simp [verify_token, Token.hasMarker, Token.unsign, ht, hd]
            · simp [verify_token, Token.hasMarker, Token.unsign, ht, hd,
                hdur, hdne, hgt]
          · intro a ha
            refine ⟨rfl, payload, ?_⟩
            cases hpt : payload.t with
            | none =>
                rw [verify_token] at ha
                simp [Token.hasMarker, Token.unsign, hpt] at ha
            | some jv =>
                cases jv with
                | nonInt =>
                    rw [verify_token] at ha
                    simp [Token.hasMarker, Token.unsign, hpt] at ha
                | int c =>
                    refine ⟨c, rfl, rfl, ?_, ?_⟩
                    · intro hd
                      rw [verify_token] at ha
                      simp [Token.hasMarker, Token.unsign, hpt, hd] at ha
                    · intro d hdur hdne
                      by_cases hd : payload.d = some JVal.nonInt
                      · rw [verify_token] at ha
                        simp [Token.hasMarker, Token.unsign, hpt, hd] at ha
                      · rw [verify_token] at ha
                        simp [Token.hasMarker, Token.unsign, hpt, hd,
                          hdur] at ha
                        obtain ⟨h1, -⟩ := ha
                        have h2 := h1 hdne
                        omega

/-- Witness for C9: a token without the marker under disabled settings,
and a bad-signature token under enabled settings, both verify to
none. -/
theorem C9_verify_token_totality_witness :
    verify_token ⟨false, 0⟩ 0 (.noMarker "x") = none ∧
    verify_token ⟨true, 0⟩ 0 (.badSig "y") = none :=
  ⟨(C9_verify_token_totality ⟨false, 0⟩ 0 (.noMarker "x")).1 rfl,
   (C9_verify_token_totality ⟨true, 0⟩ 0 (.badSig "y")).2.2.1 rfl⟩

/-- C10 counterexample: with a positive TTL cap of 5, a correctly signed
token whose payload carries the explicit duration 0 is still verified 100
seconds after its creation time — the claim says verification must
return none once the elapsed time exceeds the cap, yet an actor with no
token_expires is returned. -/
theorem C10_ttl_cap_counterexample :
    verify_token ⟨true, 5⟩ 100
        (.signed ⟨"x", some (.int 0), some (.int 0), none⟩)
      = some ⟨"x", "dstok", none, none⟩ ∧
    (100 : Int) - 0 > 5 :=
  ⟨rfl, by decide⟩

/-- C10 (amended): whenever the TTL cap is positive, for every signed
token whose payload duration field is not the explicit integer 0, the
effective lifetime never exceeds the cap: verification returns none once
the elapsed time exceeds the cap, and any returned actor carries
token_expires equal to the creation time plus the effective duration,
which is at most the cap. A payload carrying the explicit duration 0 is
exempt: it is granted unlimited lifetime with no token_expires. -/
theorem C10_ttl_capping_amended (s : Settings) (now created : Int)
    (dec : Decoded) (tok : Token)
    (hpos : 0 < s.max_signed_tokens_ttl)
    (hun : tok.unsign = some dec)
    (ht : dec.t = some (.int created))
    (hdz : dec.d ≠ some (.int 0)) :
    (now - created > s.max_signed_tokens_ttl →
      verify_token s now tok = none) ∧
    (∀ a, verify_token s now tok = some a →
      ∃ d, effDuration s (durField dec) = some d ∧
        d ≤ s.max_signed_tokens_ttl ∧ now - created ≤ d ∧
        a.token_expires = some (created + d)) := by
  obtain ⟨allow, ttl⟩ := s
  cases tok with
  | noMarker str => cases hun
  | badSig str => cases hun
  | signed payload =>
      obtain rfl : payload = dec := Option.some.inj hun
      cases allow with
      | false =>
          have hv : verify_token ⟨false, ttl⟩ now (.signed payload) = none := by
            simp [verify_token]
          exact ⟨fun _ => hv, fun a ha => (by rw [hv] at ha; cases ha)⟩
      | true =>
          have hpos2 : 0 < ttl := hpos
          have hexist : ∃ d, effDuration ⟨true, ttl⟩ (durField payload) = some d
              ∧ d ≠ 0 ∧ d ≤ ttl := by
            cases hdu : durField payload with
            | none =>
                refine ⟨ttl, ?_, by omega, le_refl _⟩
                simp [effDuration, Settings.ttlTruthy]
                omega
            | some n =>
                have hn : payload.d = some (.int n) := by
                  revert hdu
                  unfold durField
                  cases payload.d with
                  | none => intro h; cases h
                  | some jv =>
                      cases jv with
                      | int m => intro h; cases h; rfl
                      | nonInt => intro h; cases h
                have hne : n ≠ 0 := by
                  intro h
                  exact hdz (by rw [hn, h])
                by_cases hcap : n > ttl
                · refine ⟨ttl, ?_, by omega, le_refl _⟩
                  simp [effDuration, Settings.ttlTruthy, hdu]
                  omega
                · refine ⟨n, ?_, hne, by omega⟩
                  simp [effDuration, Settings.ttlTruthy, hdu]
                  omega
          obtain ⟨d, hdur, hdne, hdle⟩ := hexist
          by_cases hd : payload.d = some JVal.nonInt
          · have hv : verify_token ⟨true, ttl⟩ now (.signed payload) = none := by
              simp [verify_token, Token.hasMarker, Token.unsign, ht, hd]
            exact ⟨fun _ => hv, fun a ha => (by rw [hv] at ha; cases ha)⟩
          · constructor
            · intro hgt
              have hgt2 : now - created > ttl := hgt
              simp [verify_token, Token.hasMarker, Token.unsign, ht, hd,
                hdur, hdne]
              omega
            · intro a ha
              rw [verify_token] at ha
              simp [Token.hasMarker, Token.unsign, ht, hd, hdur] at ha
              obtain ⟨h1, h2⟩ := ha
              refine ⟨d, hdur, hdle, (by have := h1 hdne; omega), ?_⟩
              rw [← h2]
              simp [hdne]

/-- Witness for the amended C10: a capped token with no duration field,
verified past the cap, is rejected. -/
theorem C10_ttl_capping_amended_witness :
    verify_token ⟨true, 5⟩ 100 (.signed ⟨"x", some (.int 0), none, none⟩)
      = none :=
  (C10_ttl_capping_amended ⟨true, 5⟩ 100 0 ⟨"x", some (.int 0), none, none⟩
    (.signed ⟨"x", some (.int 0), none, none⟩)
    (by decide) rfl rfl (by decide)).1 (by decide)

end Tokens
